import Mathlib

/-!
Shallow embedding of the annotation-editor core of the watermark/image-repair
tool (`src/index.tsx`, multi-region version, also `src/unnamed/part_000`):
the coordinate mapper `getScaledCoords`, the drag state machine
(`handleMouseDown` / `handleMouseMove` / `handleMouseUp` / the `onMouseLeave`
handler), the overlay renderer `draw`, and the App-side region-list handlers
(`handleAnnotate`, `handleUndo`, `handleClear`).

Coordinates are JavaScript numbers; we model the finite arithmetic over `ℚ`
(all operations used -- subtraction, multiplication, `Math.min`, `Math.abs`,
division -- are exact on the inputs at issue) and, for `getScaledCoords`,
wrap `ℚ` into `JNum`, which adds the IEEE non-finite values `Infinity`,
`-Infinity` and `NaN` so that JavaScript's unguarded division by zero is
represented faithfully.  Signed zero is not modelled: no operation of this
program distinguishes `0` from `-0`.
-/

namespace Watermark

/-- A JavaScript number: a finite value (exact, as a rational) or one of the
IEEE special values `Infinity`, `-Infinity`, `NaN`. -/
inductive JNum where
  | fin : ℚ → JNum
  | inf : JNum
  | ninf : JNum
  | nan : JNum
deriving DecidableEq

/-- IEEE subtraction restricted to the values this program can produce. -/
def JNum.sub : JNum → JNum → JNum
  | .nan, _ => .nan
  | _, .nan => .nan
  | .fin a, .fin b => .fin (a - b)
  | .inf, .inf => .nan
  | .inf, _ => .inf
  | .ninf, .ninf => .nan
  | .ninf, _ => .ninf
  | .fin _, .inf => .ninf
  | .fin _, .ninf => .inf

/-- IEEE multiplication (sign of zero ignored). -/
def JNum.mul : JNum → JNum → JNum
  | .nan, _ => .nan
  | _, .nan => .nan
  | .fin a, .fin b => .fin (a * b)
  | .fin a, .inf => if 0 < a then .inf else if a < 0 then .ninf else .nan
  | .inf, .fin a => if 0 < a then .inf else if a < 0 then .ninf else .nan
  | .fin a, .ninf => if 0 < a then .ninf else if a < 0 then .inf else .nan
  | .ninf, .fin a => if 0 < a then .ninf else if a < 0 then .inf else .nan
  | .inf, .inf => .inf
  | .inf, .ninf => .ninf
  | .ninf, .inf => .ninf
  | .ninf, .ninf => .inf

/-- IEEE division (sign of zero ignored): division of a nonzero finite value
by zero yields a signed infinity, `0 / 0` yields `NaN`. -/
def JNum.div : JNum → JNum → JNum
  | .nan, _ => .nan
  | _, .nan => .nan
  | .fin a, .fin b =>
      if b = 0 then (if 0 < a then .inf else if a < 0 then .ninf else .nan)
      else .fin (a / b)
  | .inf, .fin _ => .inf
  | .ninf, .fin _ => .ninf
  | .fin _, .inf => .fin 0
  | .fin _, .ninf => .fin 0
  | .inf, _ => .nan
  | .ninf, _ => .nan

/-- Whether a JavaScript number is finite (neither infinite nor `NaN`). -/
def JNum.isFinite : JNum → Bool
  | .fin _ => true
  | _ => false

/-- The canvas element's backing-store dimensions (`canvas.width`,
`canvas.height`; the effect sets them to the image's natural size). -/
structure Canvas where
  width : ℚ
  height : ℚ
deriving DecidableEq

/-- The image element's on-screen (CSS layout) size, `img.offsetWidth` /
`img.offsetHeight`. -/
structure Img where
  offsetWidth : ℚ
  offsetHeight : ℚ
deriving DecidableEq

/-- The canvas bounding client rectangle's top-left corner
(`rect.left`, `rect.top`). -/
structure BoundingRect where
  left : ℚ
  top : ℚ
deriving DecidableEq

/-- A point as returned by `getScaledCoords` with full IEEE semantics. -/
structure JPoint where
  x : JNum
  y : JNum
deriving DecidableEq

/-- A point in the image's native pixel space (finite coordinates). -/
structure Point where
  x : ℚ
  y : ℚ
deriving DecidableEq

/-- A rectangular region in native pixel space (the source's `Annotation`
interface: fields `x`, `y`, `width`, `height`). -/
structure Region where
  x : ℚ
  y : ℚ
  width : ℚ
  height : ℚ
deriving DecidableEq

/--
`getScaledCoords` (src/index.tsx:328-341).  The three DOM references
(`canvasRef.current`, `imageRef.current`, and the bounding rectangle obtained
from the canvas) are `Option`-valued; when any is absent the guard
`if (!img || !canvas || !rect) return \x7b x: 0, y: 0 \x7d` fires.  Otherwise
the pointer position is translated by the bounding rectangle's top-left and
multiplied by the scale factors `canvas.width / img.offsetWidth` and
`canvas.height / img.offsetHeight`, with JavaScript division semantics.
-/
def getScaledCoords (canvas : Option Canvas) (img : Option Img)
    (rect : Option BoundingRect) (clientX clientY : ℚ) : JPoint :=
  match img, canvas, rect with
  | some i, some c, some r =>
      let scaleX := JNum.div (.fin c.width) (.fin i.offsetWidth)
      let scaleY := JNum.div (.fin c.height) (.fin i.offsetHeight)
      { x := JNum.mul (JNum.sub (.fin clientX) (.fin r.left)) scaleX
        y := JNum.mul (JNum.sub (.fin clientY) (.fin r.top)) scaleY }
  | _, _, _ => { x := .fin 0, y := .fin 0 }

/-- The `AnnotationEditor` component's own state: `isDrawing`, `startPoint`,
`currentDragRect`. -/
structure EditorState where
  isDrawing : Bool
  startPoint : Point
  currentDragRect : Option Region
deriving DecidableEq

/-- A 2D-context painting operation, with the context attributes
(`strokeStyle` / `fillStyle`, `lineWidth`, `setLineDash`, `font`) in force at
the moment it executes recorded inline. -/
inductive PaintOp where
  | strokeRect (strokeStyle : String) (lineWidth : ℚ) (lineDash : List ℚ)
      (x y w h : ℚ)
  | fillRect (fillStyle : String) (x y w h : ℚ)
  | fillText (fillStyle : String) (font : String) (text : String) (x y : ℚ)
deriving DecidableEq

/-- A canvas operation: a `clearRect` call or a painting operation. -/
inductive CanvasOp where
  | clearRect (x y w h : ℚ)
  | paint (p : PaintOp)
deriving DecidableEq

/-- The body of `image.annotations.forEach((rect, index) => ...)` in `draw`
(src/index.tsx:399-409): stroke the region, fill it with the translucent
style, then write the label `#` followed by `index + 1` at
`(rect.x + 2, rect.y + 14)`. -/
def drawRegion (index : ℕ) (r : Region) : List CanvasOp :=
  [ .paint (.strokeRect "#4a90e2" 3 [] r.x r.y r.width r.height),
    .paint (.fillRect "rgba(74, 144, 226, 0.2)" r.x r.y r.width r.height),
    .paint (.fillText "#4a90e2" "12px Arial" ("#" ++ toString (index + 1))
      (r.x + 2) (r.y + 14)) ]

/-- The `forEach` loop over the committed regions, carrying the 0-based
index. -/
def drawRegions : ℕ → List Region → List CanvasOp
  | _, [] => []
  | i, r :: rest => drawRegion i r ++ drawRegions (i + 1) rest

/--
`draw` (src/index.tsx:387-418): clear the whole backing surface
(`ctx.clearRect(0, 0, canvas.width, canvas.height)`), draw every committed
region with its label, then -- only if a current drag rectangle is present
and both its dimensions are strictly positive -- stroke the live rectangle in
the distinct dashed red style.  `W`, `H` are `canvas.width`, `canvas.height`.
-/
def draw (W H : ℚ) (anns : List Region) (currentRect : Option Region) :
    List CanvasOp :=
  CanvasOp.clearRect 0 0 W H ::
    (drawRegions 0 anns ++
      match currentRect with
      | some r =>
          if 0 < r.width ∧ 0 < r.height then
            [.paint (.strokeRect "#e24a4a" 2 [5, 5] r.x r.y r.width r.height)]
          else []
      | none => [])

/-- Executing one canvas operation on the current visible surface content
(the list of painting operations still visible).  The only `clearRect` this
program issues covers the full backing surface, which erases everything. -/
def applyOp (W H : ℚ) (surface : List PaintOp) : CanvasOp → List PaintOp
  | .clearRect x y w h =>
      if x = 0 ∧ y = 0 ∧ w = W ∧ h = H then [] else surface
  | .paint p => surface ++ [p]

/-- Running a full `draw` call against a surface holding `surface` as its
current content: the visible content afterwards. -/
def render (W H : ℚ) (surface : List PaintOp) (anns : List Region)
    (currentRect : Option Region) : List PaintOp :=
  (draw W H anns currentRect).foldl (applyOp W H) surface

/-- `handleMouseDown` (src/index.tsx:343-348): record the mapped coordinates
as the anchor, start drawing, seed the live rectangle as zero-size at the
anchor. -/
def handleMouseDown (s : EditorState) (coords : Point) : EditorState :=
  { s with
      startPoint := coords
      isDrawing := true
      currentDragRect := some ⟨coords.x, coords.y, 0, 0⟩ }

/-- `handleMouseMove` (src/index.tsx:350-363): if not drawing, no effect;
otherwise recompute the normalized live rectangle between the anchor and the
current mapped point, store it, and redraw with it overlaid.  The second
component is the `draw` call issued (if any). -/
def handleMouseMove (s : EditorState) (endPoint : Point) (W H : ℚ)
    (anns : List Region) : EditorState × Option (List CanvasOp) :=
  if s.isDrawing then
    let newRect : Region :=
      ⟨min s.startPoint.x endPoint.x, min s.startPoint.y endPoint.y,
       |s.startPoint.x - endPoint.x|, |s.startPoint.y - endPoint.y|⟩
    ({ s with currentDragRect := some newRect },
     some (draw W H anns (some newRect)))
  else (s, none)

/--
`handleMouseUp` (src/index.tsx:365-385): if not drawing, no effect; otherwise
stop drawing, discard the live rectangle, form the normalized rectangle
between the anchor and the release point, and -- exactly when
`annotation.width > 5 && annotation.height > 5` -- invoke `onAnnotate` with
it; a too-small rectangle instead redraws the existing regions only.
Returns (new state, `onAnnotate` invocations, `draw` call issued if any).
-/
def handleMouseUp (s : EditorState) (endPoint : Point) (W H : ℚ)
    (anns : List Region) :
    EditorState × List Region × Option (List CanvasOp) :=
  if s.isDrawing then
    let region : Region :=
      ⟨min s.startPoint.x endPoint.x, min s.startPoint.y endPoint.y,
       |s.startPoint.x - endPoint.x|, |s.startPoint.y - endPoint.y|⟩
    let s' : EditorState := { s with isDrawing := false, currentDragRect := none }
    if 5 < region.width ∧ 5 < region.height then (s', [region], none)
    else (s', [], some (draw W H anns none))
  else (s, [], none)

/-- The `onMouseLeave` handler (src/index.tsx:451-457): if a drag is in
progress, stop drawing, discard the live rectangle and redraw without it;
otherwise do nothing.  Returns (new state, `onAnnotate` invocations -- the
handler contains no such call, so always `[]` -- and the `draw` call issued
if any). -/
def handleMouseLeave (s : EditorState) (W H : ℚ) (anns : List Region) :
    EditorState × List Region × Option (List CanvasOp) :=
  if s.isDrawing then
    ({ s with isDrawing := false, currentDragRect := none }, [],
     some (draw W H anns none))
  else (s, [], none)

/-- The App's `sourceImage` state (`ImageData` interface): data URL, natural
dimensions, and the ordered list of committed regions. -/
structure ImageData where
  dataUrl : String
  width : ℚ
  height : ℚ
  annotations : List Region
deriving DecidableEq

/-- `handleAnnotate` (src/index.tsx:494-501): if a source image is loaded,
append the committed region at the end of its list (spread
`[...sourceImage.annotations, annotation]`); otherwise no effect. -/
def handleAnnotate (sourceImage : Option ImageData) (a : Region) :
    Option ImageData :=
  match sourceImage with
  | some si => some { si with annotations := si.annotations ++ [a] }
  | none => none

/-- `handleUndo` (src/index.tsx:503-510): if a source image is loaded and has
at least one region, replace the list by `annotations.slice(0, -1)` (all but
the last); otherwise no effect.  The second component records `onAnnotate`
invocations -- the handler contains none, so it is always `[]`. -/
def handleUndo (sourceImage : Option ImageData) :
    Option ImageData × List Region :=
  match sourceImage with
  | some si =>
      if 0 < si.annotations.length then
        (some { si with annotations := si.annotations.dropLast }, [])
      else (some si, [])
  | none => (none, [])

/-- `handleClear` (src/index.tsx:512-516): if a source image is loaded,
replace the region list by the empty list; otherwise no effect.  The second
component records `onAnnotate` invocations -- always `[]`. -/
def handleClear (sourceImage : Option ImageData) :
    Option ImageData × List Region :=
  match sourceImage with
  | some si => (some { si with annotations := [] }, [])
  | none => (none, [])

/-- Multiplying a finite value by `Infinity` never yields a finite value. -/
lemma isFinite_mul_fin_inf (a : ℚ) : (JNum.mul (.fin a) .inf).isFinite = false := by
  simp only [JNum.mul]
  split_ifs <;> rfl

/-- C1: for every pointer event with the canvas, image element and bounding
rectangle all available and positive displayed size, `getScaledCoords` maps
the surface-local pointer position `(px, py) = (clientX - rect.left,
clientY - rect.top)` to exactly
`(px * nativeWidth / displayedWidth, py * nativeHeight / displayedHeight)`. -/
theorem getScaledCoords_scale (c : Canvas) (i : Img) (r : BoundingRect)
    (cx cy : ℚ) (hw : 0 < i.offsetWidth) (hh : 0 < i.offsetHeight) :
    getScaledCoords (some c) (some i) (some r) cx cy =
      ⟨.fin ((cx - r.left) * c.width / i.offsetWidth),
       .fin ((cy - r.top) * c.height / i.offsetHeight)⟩ := by
  simp [getScaledCoords, JNum.div, JNum.sub, JNum.mul, hw.ne', hh.ne',
    mul_div_assoc]

/-- Witness for C1 at native size 800x600 displayed at 400x300, pointer at
surface-local (100, 50). -/
theorem getScaledCoords_scale_witness :
    getScaledCoords (some ⟨800, 600⟩) (some ⟨400, 300⟩) (some ⟨0, 0⟩) 100 50 =
      ⟨.fin ((100 - 0) * 800 / 400), .fin ((50 - 0) * 600 / 300)⟩ :=
  getScaledCoords_scale ⟨800, 600⟩ ⟨400, 300⟩ ⟨0, 0⟩ 100 50
    (by norm_num) (by norm_num)

/-- C8: if the canvas element, the image element, or the canvas bounding
rectangle is unavailable, `getScaledCoords` returns the origin `(0, 0)`
instead of failing, for every pointer input. -/
theorem getScaledCoords_origin_fallback (canvas : Option Canvas)
    (img : Option Img) (rect : Option BoundingRect) (cx cy : ℚ)
    (h : canvas = none ∨ img = none ∨ rect = none) :
    getScaledCoords canvas img rect cx cy = ⟨.fin 0, .fin 0⟩ := by
  cases canvas <;> cases img <;> cases rect <;> simp_all [getScaledCoords]

/-- Witness for C8 with an absent canvas reference. -/
theorem getScaledCoords_origin_fallback_witness :
    getScaledCoords none (some ⟨400, 300⟩) (some ⟨0, 0⟩) 7 9 =
      ⟨.fin 0, .fin 0⟩ :=
  getScaledCoords_origin_fallback none (some ⟨400, 300⟩) (some ⟨0, 0⟩) 7 9
    (Or.inl rfl)

/-- C10: when all three references exist, `getScaledCoords` always takes the
unguarded division path (the `(0,0)` fallback fires only on a `null`
reference); with a positive backing dimension and a zero displayed
dimension the corresponding coordinate is non-finite (`Infinity`,
`-Infinity` or `NaN`), and both coordinates are finite whenever both
displayed dimensions are positive. -/
theorem getScaledCoords_unguarded_division (c : Canvas) (i : Img)
    (r : BoundingRect) (cx cy : ℚ) :
    (getScaledCoords (some c) (some i) (some r) cx cy =
      ⟨JNum.mul (JNum.sub (.fin cx) (.fin r.left))
         (JNum.div (.fin c.width) (.fin i.offsetWidth)),
       JNum.mul (JNum.sub (.fin cy) (.fin r.top))
         (JNum.div (.fin c.height) (.fin i.offsetHeight))⟩)
    ∧ (0 < c.width → i.offsetWidth = 0 →
        (getScaledCoords (some c) (some i) (some r) cx cy).x.isFinite = false)
    ∧ (0 < c.height → i.offsetHeight = 0 →
        (getScaledCoords (some c) (some i) (some r) cx cy).y.isFinite = false)
    ∧ (0 < i.offsetWidth → 0 < i.offsetHeight →
        (getScaledCoords (some c) (some i) (some r) cx cy).x.isFinite = true ∧
        (getScaledCoords (some c) (some i) (some r) cx cy).y.isFinite = true) := by
  refine ⟨rfl, ?_, ?_, ?_⟩
  · intro hW h0
    simp [getScaledCoords, JNum.div, JNum.sub, h0, hW, isFinite_mul_fin_inf]
  · intro hH h0
    simp [getScaledCoords, JNum.div, JNum.sub, h0, hH, isFinite_mul_fin_inf]
  · intro hw hh
    simp [getScaledCoords, JNum.div, JNum.sub, JNum.mul, hw.ne', hh.ne',
      JNum.isFinite]

/-- Witness for C10: native width 800 with displayed width 0 gives a
non-finite x-coordinate; displayed size 400x300 gives finite coordinates. -/
theorem getScaledCoords_unguarded_division_witness :
    ((getScaledCoords (some ⟨800, 600⟩) (some ⟨0, 300⟩) (some ⟨0, 0⟩) 10 10).x.isFinite
      = false)
    ∧ ((getScaledCoords (some ⟨800, 600⟩) (some ⟨400, 300⟩) (some ⟨0, 0⟩) 10 10).x.isFinite
      = true) :=
  ⟨(getScaledCoords_unguarded_division ⟨800, 600⟩ ⟨0, 300⟩ ⟨0, 0⟩ 10 10).2.1
      (by norm_num) rfl,
   ((getScaledCoords_unguarded_division ⟨800, 600⟩ ⟨400, 300⟩ ⟨0, 0⟩ 10 10).2.2.2
      (by norm_num) (by norm_num)).1⟩

/-- C2: a completed drag (pointer-down at `A`, then pointer-up at `B` while
drawing) invokes `onAnnotate` exactly once if and only if the normalized
rectangle has width and height strictly greater than 5 native pixels;
intermediate pointer-moves change neither the drawing flag nor the anchor;
and neither `handleUndo` nor `handleClear` ever invokes the callback. -/
theorem drag_commit_iff (s₀ : EditorState) (A B : Point) (W H : ℚ)
    (anns : List Region) (img : Option ImageData) :
    ((handleMouseUp (handleMouseDown s₀ A) B W H anns).2.1 =
      if 5 < |A.x - B.x| ∧ 5 < |A.y - B.y| then
        [⟨min A.x B.x, min A.y B.y, |A.x - B.x|, |A.y - B.y|⟩]
      else [])
    ∧ (∀ (s : EditorState) (C : Point),
        (handleMouseMove s C W H anns).1.isDrawing = s.isDrawing ∧
        (handleMouseMove s C W H anns).1.startPoint = s.startPoint)
    ∧ (handleUndo img).2 = [] ∧ (handleClear img).2 = [] := by
  refine ⟨?_, ?_, ?_, ?_⟩
  · simp only [handleMouseDown, handleMouseUp]
    split_ifs <;> simp_all
  · intro s C
    simp only [handleMouseMove]
    split <;> simp
  · cases img with
    | none => rfl
    | some si =>
        simp only [handleUndo]
        split <;> rfl
  · cases img <;> rfl

/-- C3: the rectangle produced at drag end is the normalized one
(`min` corner, absolute-difference extents), so dragging from `A` to `B`
commits exactly what dragging from `B` to `A` commits. -/
theorem drag_direction_irrelevant (s₀ : EditorState) (A B : Point) (W H : ℚ)
    (anns : List Region) :
    ((handleMouseUp (handleMouseDown s₀ A) B W H anns).2.1 =
       (handleMouseUp (handleMouseDown s₀ B) A W H anns).2.1)
    ∧ (∀ reg, reg ∈ (handleMouseUp (handleMouseDown s₀ A) B W H anns).2.1 →
        reg = ⟨min A.x B.x, min A.y B.y, |A.x - B.x|, |A.y - B.y|⟩) := by
  constructor
  · simp only [handleMouseDown, handleMouseUp]
    simp only [min_comm, abs_sub_comm]
    split_ifs <;> rfl
  · intro reg h
    simp only [handleMouseDown, handleMouseUp] at h
    simp at h
    split at h <;> simp_all

/-- Witness for C3: the drag from (0,0) to (10,10) commits the normalized
rectangle. -/
theorem drag_direction_irrelevant_witness :
    (⟨0, 0, 10, 10⟩ : Region) =
      ⟨min 0 10, min 0 10, |(0 : ℚ) - 10|, |(0 : ℚ) - 10|⟩ :=
  (drag_direction_irrelevant ⟨false, ⟨0, 0⟩, none⟩ ⟨0, 0⟩ ⟨10, 10⟩ 100 100
      []).2 ⟨0, 0, 10, 10⟩ (by norm_num [handleMouseDown, handleMouseUp])

/-- C4: with native size 800x600 displayed at 400x300, surface-local (100,50)
maps to native (200,100), surface-local (150,100) maps to native (300,200),
and the drag from (200,100) to (300,200) commits exactly once with the
region (200, 100, 100, 100). -/
theorem scenario_800x600 :
    getScaledCoords (some ⟨800, 600⟩) (some ⟨400, 300⟩) (some ⟨0, 0⟩) 100 50 =
      ⟨.fin 200, .fin 100⟩
    ∧ getScaledCoords (some ⟨800, 600⟩) (some ⟨400, 300⟩) (some ⟨0, 0⟩) 150 100 =
      ⟨.fin 300, .fin 200⟩
    ∧ (handleMouseUp (handleMouseDown ⟨false, ⟨0, 0⟩, none⟩ ⟨200, 100⟩)
        ⟨300, 200⟩ 800 600 []).2.1 = [⟨200, 100, 100, 100⟩] := by
  refine ⟨?_, ?_, ?_⟩
  · norm_num [getScaledCoords, JNum.div, JNum.sub, JNum.mul]
  · norm_num [getScaledCoords, JNum.div, JNum.sub, JNum.mul]
  · norm_num [handleMouseDown, handleMouseUp]

/-- C7: when the pointer leaves the surface mid-drag, the drag is aborted:
drawing stops (back to idle), the live rectangle is discarded, no
`onAnnotate` call happens, and the overlay is redrawn from the committed
regions only, without a live overlay. -/
theorem leave_aborts_drag (s : EditorState) (W H : ℚ) (anns : List Region)
    (h : s.isDrawing = true) :
    handleMouseLeave s W H anns =
      ({ s with isDrawing := false, currentDragRect := none }, [],
       some (draw W H anns none)) := by
  simp [handleMouseLeave, h]

/-- Witness for C7 at a concrete mid-drag state. -/
theorem leave_aborts_drag_witness :
    handleMouseLeave ⟨true, ⟨1, 2⟩, some ⟨1, 2, 0, 0⟩⟩ 800 600 [] =
      (⟨false, ⟨1, 2⟩, none⟩, [], some (draw 800 600 [] none)) :=
  leave_aborts_drag ⟨true, ⟨1, 2⟩, some ⟨1, 2, 0, 0⟩⟩ 800 600 [] rfl

/-- The label texts written by a canvas-operation sequence, with the
positions they are written at, in execution order. -/
def labelOps (ops : List CanvasOp) : List (String × ℚ × ℚ) :=
  ops.filterMap fun op =>
    match op with
    | .paint (.fillText _ _ t x y) => some (t, x, y)
    | _ => none

/-- The loop over the committed regions writes one label per region, in list
order: region number `i` (0-based, counting from loop start `n`) gets the
text `#` followed by `n + i + 1` at its own top-left corner. -/
lemma labelOps_drawRegions (n : ℕ) (anns : List Region) :
    labelOps (drawRegions n anns) =
      (List.enumFrom n anns).map
        (fun p => ("#" ++ toString (p.1 + 1), p.2.x + 2, p.2.y + 14)) := by
  induction anns generalizing n with
  | nil => rfl
  | cons r rest ih =>
      simp only [drawRegions, drawRegion, List.enumFrom_cons, List.map_cons,
        labelOps, List.filterMap_append] at ih ⊢
      simp [ih n.succ]

/-- C5: `handleAnnotate` appends each committed region at the end of the
list, a whole sequence of commits appends in commit order, and the renderer
labels the region at 0-based position `i` with the text `#` followed by
`i + 1`, in list order, regardless of the regions' geometry. -/
theorem order_preserved_and_labels (si : ImageData) (a : Region)
    (regs : List Region) (W H : ℚ) (anns : List Region)
    (cur : Option Region) :
    handleAnnotate (some si) a =
      some { si with annotations := si.annotations ++ [a] }
    ∧ regs.foldl handleAnnotate (some si) =
      some { si with annotations := si.annotations ++ regs }
    ∧ labelOps (draw W H anns cur) =
      anns.enum.map (fun p => ("#" ++ toString (p.1 + 1), p.2.x + 2, p.2.y + 14)) := by
  refine ⟨rfl, ?_, ?_⟩
  · induction regs generalizing si with
    | nil => simp
    | cons r rest ih =>
        simp only [List.foldl_cons, handleAnnotate]
        rw [ih { si with annotations := si.annotations ++ [r] }]
        simp
  · have h := labelOps_drawRegions 0 anns
    simp only [draw, labelOps, List.filterMap_cons, List.filterMap_append] at h ⊢
    rw [h]
    cases cur with
    | none => simp [List.enum]
    | some r =>
        by_cases hr : 0 < r.width ∧ 0 < r.height <;> simp [hr, List.enum]

/-- After executing the full-surface clear that opens every `draw` call, the
prior surface content is gone. -/
lemma applyOp_full_clear (W H : ℚ) (s : List PaintOp) :
    applyOp W H s (.clearRect 0 0 W H) = [] := by
  simp [applyOp]

/-- The result of running a `draw` call does not depend on what was on the
surface before. -/
lemma render_surface_independent (W H : ℚ) (anns : List Region)
    (cur : Option Region) (s : List PaintOp) :
    render W H s anns cur = render W H [] anns cur := by
  simp only [render, draw, List.foldl_cons, applyOp_full_clear]

/-- C6: every render first clears the entire overlay, then draws the
committed regions, then the live rectangle exactly when both its dimensions
are positive; consequently the rendered content is independent of the
previous surface content, and rendering twice in succession with identical
committed input and no live rectangle gives an identical result. -/
theorem full_redraw (W H : ℚ) (anns : List Region) (cur : Option Region)
    (s₁ s₂ : List PaintOp) :
    (draw W H anns cur).head? = some (.clearRect 0 0 W H)
    ∧ render W H s₁ anns cur = render W H s₂ anns cur
    ∧ render W H (render W H s₁ anns none) anns none = render W H s₁ anns none
    ∧ (∀ r : Region, 0 < r.width ∧ 0 < r.height →
        draw W H anns (some r) =
          draw W H anns none ++
            [.paint (.strokeRect "#e24a4a" 2 [5, 5] r.x r.y r.width r.height)])
    ∧ (∀ r : Region, ¬(0 < r.width ∧ 0 < r.height) →
        draw W H anns (some r) = draw W H anns none) := by
  refine ⟨rfl, ?_, ?_, ?_, ?_⟩
  · rw [render_surface_independent W H anns cur s₁,
      render_surface_independent W H anns cur s₂]
  · rw [render_surface_independent W H anns none (render W H s₁ anns none),
      render_surface_independent W H anns none s₁]
  · intro r hr
    simp [draw, hr]
  · intro r hr
    simp [draw, hr]

/-- Witness for C6: drawing a positive live rectangle appends exactly its
stroke; a zero-width live rectangle draws nothing extra. -/
theorem full_redraw_witness :
    draw 10 10 [] (some ⟨1, 1, 3, 3⟩) =
      draw 10 10 [] none ++ [.paint (.strokeRect "#e24a4a" 2 [5, 5] 1 1 3 3)]
    ∧ draw 10 10 [] (some ⟨1, 1, 0, 3⟩) = draw 10 10 [] none :=
  ⟨(full_redraw 10 10 [] (some ⟨1, 1, 3, 3⟩) [] []).2.2.2.1 ⟨1, 1, 3, 3⟩
      (by norm_num),
   (full_redraw 10 10 [] (some ⟨1, 1, 0, 3⟩) [] []).2.2.2.2 ⟨1, 1, 0, 3⟩
      (by norm_num)⟩

/-- C9: on a source image with at least one committed region, `handleUndo`
replaces the region list by its prefix of length `n - 1` and `handleClear`
replaces it by the empty list; both leave the data URL and the stored native
dimensions unchanged. -/
theorem undo_clear_replace (si : ImageData) (h : 0 < si.annotations.length) :
    (handleUndo (some si)).1 =
      some ⟨si.dataUrl, si.width, si.height,
            si.annotations.take (si.annotations.length - 1)⟩
    ∧ (handleClear (some si)).1 = some ⟨si.dataUrl, si.width, si.height, []⟩ := by
  constructor
  · simp [handleUndo, h, List.dropLast_eq_take]
  · rfl

/-- Witness for C9 on a one-region image. -/
theorem undo_clear_replace_witness :
    (handleUndo (some ⟨"d", 4, 3, [⟨0, 0, 9, 9⟩]⟩)).1 =
      some ⟨"d", 4, 3, ([⟨0, 0, 9, 9⟩] : List Region).take
        (([⟨0, 0, 9, 9⟩] : List Region).length - 1)⟩
    ∧ (handleClear (some ⟨"d", 4, 3, [⟨0, 0, 9, 9⟩]⟩)).1 =
      some ⟨"d", 4, 3, []⟩ :=
  undo_clear_replace ⟨"d", 4, 3, [⟨0, 0, 9, 9⟩]⟩ (by norm_num)

end Watermark
